import Mathlib

/-!
Verification of the TBM dashboard's reconciliation engine (frontend
monitor `TBMDataMonitor` in `script.js`).  JavaScript values that can
flow through the monitor are embedded as `JSVal`; numbers are modelled
as exact rationals with NaN and the two infinities as separate
constructors (floating point rounding plays no role in the claims
considered, which are about control flow, state evolution and decimal
rendering of exactly representable inputs).
-/

namespace TBM

/-- A JavaScript value as it can appear in the monitor's data paths:
a finite number, NaN, ±Infinity, a boolean, a string, or a plain object
carrying optional `value` and `predicted` fields. -/
inductive JSVal where
  | num (q : ℚ)
  | nan
  | inf (neg : Bool)
  | bool (b : Bool)
  | str (s : String)
  | obj (value : Option JSVal) (predicted : Option JSVal)

/-- `typeof v === 'object'` (for the shapes we model; `null` is handled
separately by the callers, as in the source). -/
def typeofIsObject : JSVal → Bool
  | .obj _ _ => true
  | _ => false

/-- `typeof v === 'number'` — finite numbers, NaN and ±Infinity. -/
def typeofIsNumber : JSVal → Bool
  | .num _ => true
  | .nan => true
  | .inf _ => true
  | _ => false

/-- `isNaN(v)` for a value already known to be a number. -/
def jsIsNaN : JSVal → Bool
  | .nan => true
  | _ => false

/-- `isFinite(v)` for a value already known to be a number. -/
def jsIsFinite : JSVal → Bool
  | .num _ => true
  | _ => false

/-- The `value` field of an object (`undefined` when absent or when the
receiver is not an object). -/
def objValue : JSVal → Option JSVal
  | .obj v _ => v
  | _ => none

/-- The `predicted` field of an object. -/
def objPredicted : JSVal → Option JSVal
  | .obj _ p => p
  | _ => none

/-- `x === true` on an optional field. -/
def isStrictTrue : Option JSVal → Bool
  | some (.bool true) => true
  | _ => false

/-- JavaScript `ToNumber` restricted to the value shapes that reach the
arithmetic in the monitor (string numeric parsing is elided: no string
reading ever reaches a subtraction in the modelled paths, and a plain
object coerces to NaN). Result is always `num`, `nan` or `inf`. -/
def toNumber : JSVal → JSVal
  | .num q => .num q
  | .nan => .nan
  | .inf n => .inf n
  | .bool b => .num (if b then 1 else 0)
  | .str _ => .nan
  | .obj _ _ => .nan

/-- JavaScript subtraction `a - b` with numeric coercion. -/
def jsSub (a b : JSVal) : JSVal :=
  match toNumber a, toNumber b with
  | .num x, .num y => .num (x - y)
  | .inf n, .num _ => .inf n
  | .num _, .inf n => .inf (!n)
  | .inf n, .inf m => if n = m then .nan else .inf n
  | _, _ => .nan

/-- JavaScript multiplication `a * b` with numeric coercion. -/
def jsMul (a b : JSVal) : JSVal :=
  match toNumber a, toNumber b with
  | .num x, .num y => .num (x * y)
  | .num x, .inf n => if x = 0 then .nan else .inf (xor n (decide (x < 0)))
  | .inf n, .num y => if y = 0 then .nan else .inf (xor n (decide (y < 0)))
  | .inf n, .inf m => .inf (xor n m)
  | _, _ => .nan

/-- JavaScript division `a / b` with numeric coercion. -/
def jsDiv (a b : JSVal) : JSVal :=
  match toNumber a, toNumber b with
  | .num x, .num y =>
      if y = 0 then (if x = 0 then .nan else .inf (decide (x < 0))) else .num (x / y)
  | .num _, .inf _ => .num 0
  | .inf n, .num y => .inf (xor n (decide (y < 0)))
  | .inf _, .inf _ => .nan
  | _, _ => .nan

/-- `Math.abs(v)`. -/
def jsAbs : JSVal → JSVal
  | .num q => .num |q|
  | .inf _ => .inf false
  | _ => .nan

/-- `v < c` for a rational bound `c` (false on NaN, as in JavaScript). -/
def jsLtQ : JSVal → ℚ → Bool
  | .num q, c => decide (q < c)
  | .inf n, _ => n
  | _, _ => false

/-- `v > 0` (false on NaN). -/
def jsGtZero : JSVal → Bool
  | .num q => decide (0 < q)
  | .inf n => !n
  | _ => false

/-- Left-pad a digit string with zeros to the given width. -/
def padZeros (s : String) (n : ℕ) : String :=
  if s.length ≥ n then s else String.mk (List.replicate (n - s.length) '0') ++ s

/-- Round to the nearest integer, ties away from zero on the magnitude
(the rounding used by `Number.prototype.toFixed` after sign
extraction). Intended for non-negative arguments. -/
def jsRound (x : ℚ) : ℤ := ⌊x + 1 / 2⌋

/-- `x.toFixed(d)` on an exact rational. -/
def toFixed (x : ℚ) (d : ℕ) : String :=
  let sign := if x < 0 then "-" else ""
  let n := (jsRound (|x| * 10 ^ d)).toNat
  if d = 0 then sign ++ toString n
  else sign ++ toString (n / 10 ^ d) ++ "." ++ padZeros (toString (n % 10 ^ d)) d

/-- `x.toExponential(2)` for `|x| ≥ 1` (the only regime in which the
monitor calls it: `|x| > 1e10`). -/
def toExponential2 (x : ℚ) : String :=
  let sign := if x < 0 then "-" else ""
  let a := |x|
  let e := Nat.log 10 (⌊a⌋).toNat
  let m := (jsRound (a / 10 ^ e * 100)).toNat
  if m ≥ 1000 then sign ++ "1.00e+" ++ toString (e + 1)
  else sign ++ toString (m / 100) ++ "." ++ padZeros (toString (m % 100)) 2 ++ "e+" ++ toString e

/-- `toFixed` as called on a possibly non-finite number
(`changePercent.toFixed(1)` in the source). -/
def jsToFixed (v : JSVal) (d : ℕ) : String :=
  match v with
  | .num q => toFixed q d
  | .nan => "NaN"
  | .inf n => if n then "-Infinity" else "Infinity"
  | _ => "NaN"

/-- `TBMDataMonitor.formatValue`: `'--'` for anything that is not a
finite number, exponential form with 2 digits above `1e10` in
magnitude, otherwise 0 / 2 / 4 decimal places by magnitude band. -/
def formatValue : JSVal → String
  | .num q =>
      if |q| > 10 ^ 10 then toExponential2 q
      else if q ≥ 1000 then toFixed q 0
      else if q ≥ 1 then toFixed q 2
      else toFixed q 4
  | .nan => "--"
  | .inf _ => "--"
  | .bool _ => "--"
  | .str _ => "--"
  | .obj _ _ => "--"

/-- `TBMDataMonitor.determineDataStatus`: classify a raw per-feature
value (`none` models both `null` and `undefined`). -/
def determineDataStatus (value : Option JSVal) : String :=
  match value with
  | none => "missing"
  | some v =>
      if typeofIsObject v && isStrictTrue (objPredicted v) then "predicted"
      else if typeofIsNumber v && !jsIsNaN v then "valid"
      else if typeofIsObject v && (objValue v).isSome then "valid"
      else "error"

/-- One entry of the static `FEATURE_CONFIG` catalog. -/
structure Feature where
  id : ℕ
  name : String
  unit : String
deriving DecidableEq

/-- The 31-entry feature catalog (`feature_config.js`). -/
def FEATURE_CONFIG : List Feature :=
  [⟨1, "贯入度", "mm/rpm"⟩,
   ⟨2, "推进区间的压力（上）", "MPa"⟩,
   ⟨3, "推进区间的压力（右）", "MPa"⟩,
   ⟨4, "推进区间的压力（下）", "MPa"⟩,
   ⟨5, "推进区间的压力（左）", "MPa"⟩,
   ⟨6, "土舱土压（右）", "MPa"⟩,
   ⟨7, "土舱土压（右下）", "MPa"⟩,
   ⟨8, "土舱土压（左）", "MPa"⟩,
   ⟨9, "土舱土压（左下）", "MPa"⟩,
   ⟨10, "No.16推进千斤顶速度", "mm/min"⟩,
   ⟨11, "No.4推进千斤顶速度", "mm/min"⟩,
   ⟨12, "No.8推进千斤顶速度", "mm/min"⟩,
   ⟨13, "No.12推进千斤顶速度", "mm/min"⟩,
   ⟨14, "推进油缸总推力", "kN"⟩,
   ⟨15, "No.16推进千斤顶行程", "mm"⟩,
   ⟨16, "No.4推进千斤顶行程", "mm"⟩,
   ⟨17, "No.8推进千斤顶行程", "mm"⟩,
   ⟨18, "No.12推进千斤顶行程", "mm"⟩,
   ⟨19, "推进平均速度", "mm/min"⟩,
   ⟨20, "刀盘转速", "r/min"⟩,
   ⟨21, "刀盘扭矩", "kN·m"⟩,
   ⟨22, "No.1刀盘电机扭矩", "%"⟩,
   ⟨23, "No.2刀盘电机扭矩", "%"⟩,
   ⟨24, "No.3刀盘电机扭矩", "%"⟩,
   ⟨25, "No.4刀盘电机扭矩", "%"⟩,
   ⟨26, "No.5刀盘电机扭矩", "%"⟩,
   ⟨27, "No.6刀盘电机扭矩", "%"⟩,
   ⟨28, "No.7刀盘电机扭矩", "%"⟩,
   ⟨29, "No.8刀盘电机扭矩", "%"⟩,
   ⟨30, "No.9刀盘电机扭矩", "%"⟩,
   ⟨31, "No.10刀盘电机扭矩", "%"⟩]

/-- The catalog's id column. -/
def catalogIds : List ℕ := FEATURE_CONFIG.map Feature.id

/-- One element of the batch's `features` array:
`{ current_value, current_source, prediction_value }`. -/
structure FeatureData where
  current_value : Option JSVal
  current_source : Option String
  prediction_value : Option JSVal

/-- The JSON payload of one fetch: `features` (possibly absent, of any
length), `step_count`, `buffer_ready`, `tbm_status` — optional fields
model the `|| default` coercions in the source. -/
structure BatchData where
  features : Option (List FeatureData)
  step_count : Option ℕ
  buffer_ready : Option Bool
  tbm_status : Option String

/-- The monitor's mutable fields relevant to reconciliation.
`updateInterval` is `true` while the repeating timer is installed;
`lastValues` and `lastPredictionValues` map a feature id to its stored
entry (`none` = no entry). -/
structure MonitorState where
  isRunning : Bool
  updateInterval : Bool
  paused : Bool
  lastValues : ℕ → Option JSVal
  lastPredictionValues : ℕ → Option JSVal
  lastData : Option (List FeatureData)

/-- The constructor state of `TBMDataMonitor` (before `init`). -/
def initialMonitor : MonitorState :=
  ⟨false, false, false, fun _ => none, fun _ => none, none⟩

/-- One DOM cell write: text content and class list. -/
structure CellUpdate where
  text : String
  cls : String
deriving DecidableEq

/-- The four cells written for one feature during a cycle. -/
structure FeatureRender where
  tPred : CellUpdate
  value : CellUpdate
  change : CellUpdate
  nextPred : CellUpdate
deriving DecidableEq

/-- `TBMDataMonitor.updateChangeValueWithoutSaving`: the change cell for
one feature, computed against the stored `lastValues` entry and never
mutating it. -/
def updateChangeValueWithoutSaving (st : MonitorState) (featureId : ℕ)
    (currentValue : Option JSVal) : CellUpdate :=
  match currentValue with
  | some cv =>
    match st.lastValues featureId with
    | some lv =>
        let change := jsSub cv lv
        let changePercent := jsMul (jsDiv change (jsAbs lv)) (.num 100)
        if jsLtQ (jsAbs change) (1 / 10000) then ⟨"0", "change-value no-change"⟩
        else if jsGtZero change then
          ⟨"+" ++ formatValue change ++ " (+" ++ jsToFixed changePercent 1 ++ "%)",
            "change-value increase"⟩
        else
          ⟨formatValue change ++ " (" ++ jsToFixed changePercent 1 ++ "%)",
            "change-value decrease"⟩
    | none => ⟨"--", "change-value no-change"⟩
  | none => ⟨"--", "change-value no-change"⟩

/-- `TBMDataMonitor.updateFeatureDisplayWithoutSaving`: renders the four
cells of one feature and (only) in the ready-prediction branch records
the next-step prediction into `lastPredictionValues`.  The t-time cell
is read from `lastPredictionValues` before that write, as in the
source. -/
def updateFeatureDisplayWithoutSaving (st : MonitorState) (featureId : ℕ)
    (currentValue : Option JSVal) (currentStatus : String)
    (currentSource : Option String) (predictionValue : Option JSVal)
    (bufferReady : Bool) : FeatureRender × MonitorState :=
  let tPredCell : CellUpdate :=
    match st.lastPredictionValues featureId with
    | some p => ⟨formatValue p, "data-value predicted"⟩
    | none => ⟨"--", "data-value missing"⟩
  let valueCell : CellUpdate :=
    match currentValue with
    | some cv =>
        let cls :=
          if currentSource = some "api" then "data-value api-data"
          else if currentSource = some "predicted" ∨ currentSource = some "simulated" then
            "data-value filled-data"
          else if currentSource = some "cached" then "data-value cached-data"
          else "data-value " ++ currentStatus
        ⟨formatValue cv, cls⟩
    | none => ⟨"--", "data-value missing"⟩
  let changeCell := updateChangeValueWithoutSaving st featureId currentValue
  match predictionValue, bufferReady with
  | some pv, true =>
      (⟨tPredCell, valueCell, changeCell, ⟨formatValue pv, "data-value predicted"⟩⟩,
       { st with lastPredictionValues :=
           fun i => if i = featureId then some pv else st.lastPredictionValues i })
  | _, false =>
      (⟨tPredCell, valueCell, changeCell, ⟨"收集数据中...", "data-value collecting"⟩⟩, st)
  | none, true =>
      (⟨tPredCell, valueCell, changeCell, ⟨"--", "data-value missing"⟩⟩, st)

/-- Result of the first `forEach` pass of `updateData` (display without
saving): reached state, rendered cells, status counts, and whether a
`TypeError` was thrown (indexing past the end of `features`, which
aborts the pass; cells rendered before the throw stand). -/
structure DisplayPassResult where
  st : MonitorState
  renders : List (ℕ × FeatureRender)
  validCount : ℕ
  missingCount : ℕ
  predictedCount : ℕ
  threw : Bool

/-- First `forEach` of `updateData`: render every feature (and record
ready predictions) without touching `lastValues`. -/
def updateDataDisplayPass (features : List FeatureData) (bufferReady : Bool) :
    List Feature → MonitorState → DisplayPassResult
  | [], st => ⟨st, [], 0, 0, 0, false⟩
  | f :: rest, st =>
    match features.get? (f.id - 1) with
    | none => ⟨st, [], 0, 0, 0, true⟩
    | some fd =>
        let currentStatus := determineDataStatus fd.current_value
        let step := updateFeatureDisplayWithoutSaving st f.id fd.current_value currentStatus
          fd.current_source fd.prediction_value bufferReady
        let r := updateDataDisplayPass features bufferReady rest step.2
        ⟨r.st, (f.id, step.1) :: r.renders,
          (if currentStatus = "valid" then 1 else 0) + r.validCount,
          (if currentStatus = "missing" then 1 else 0) + r.missingCount,
          (if currentStatus = "predicted" then 1 else 0) + r.predictedCount,
          r.threw⟩

/-- Second `forEach` of `updateData`: store every non-absent current
value into `lastValues` (absence leaves the entry untouched). -/
def updateDataSavePass (features : List FeatureData) :
    List Feature → MonitorState → MonitorState × Bool
  | [], st => (st, false)
  | f :: rest, st =>
    match features.get? (f.id - 1) with
    | none => (st, true)
    | some fd =>
        let st' :=
          match fd.current_value with
          | some v =>
              { st with lastValues :=
                  fun i => if i = f.id then some v else st.lastValues i }
          | none => st
        updateDataSavePass features rest st'

/-- Aggregate output of one successful reconciliation cycle. -/
structure UpdateOutput where
  renders : List (ℕ × FeatureRender)
  validCount : ℕ
  missingCount : ℕ
  predictedCount : ℕ

/-- Result of `updateData`: the state reached (partial mutations stand
when a `TypeError` escaped), the rendered output (`none` when the early
invalid-format return or a throw ended the call), and whether a
`TypeError` escaped to the caller. -/
structure UpdateDataResult where
  state : MonitorState
  output : Option UpdateOutput
  threw : Bool

/-- `TBMDataMonitor.updateData`: early-return on `!data || !data.features`,
then the display pass over all catalog features, then the save pass for
`lastValues`, then statistics and `lastData`. -/
def updateData (st : MonitorState) (data : Option BatchData) : UpdateDataResult :=
  match data with
  | none => ⟨st, none, false⟩
  | some d =>
    match d.features with
    | none => ⟨st, none, false⟩
    | some features =>
        let bufferReady := d.buffer_ready.getD false
        let r1 := updateDataDisplayPass features bufferReady FEATURE_CONFIG st
        if r1.threw then ⟨r1.st, none, true⟩
        else
          let r2 := updateDataSavePass features FEATURE_CONFIG r1.st
          if r2.2 then ⟨r2.1, none, true⟩
          else ⟨{ r2.1 with lastData := some features },
                some ⟨r1.renders, r1.validCount, r1.missingCount, r1.predictedCount⟩,
                false⟩

/-- `TBMDataMonitor.startMonitoring` (state effect: running flag and
timer installed; the immediate fetch is modelled at the session level). -/
def startMonitoring (st : MonitorState) : MonitorState :=
  { st with isRunning := true, updateInterval := true }

/-- `TBMDataMonitor.stopMonitoring`: clear the running flag and cancel
the timer.  Nothing else: no in-flight fetch is cancelled and no flag
consulted by `fetchData`'s continuation is set. -/
def stopMonitoring (st : MonitorState) : MonitorState :=
  { st with isRunning := false, updateInterval := false }

/-- The success continuation of `TBMDataMonitor.fetchData` after the
response resolved and parsed: `updateData(data)` then status
`connected`; a `TypeError` escaping `updateData` is caught by the
surrounding `try`, which sets status `error` and applies
`updateData(generateMockData())` (the random mock batch is a
parameter). -/
def fetchDataSuccess (st : MonitorState) (data : Option BatchData) (mock : BatchData) :
    MonitorState × String × Option UpdateOutput :=
  let r := updateData st data
  if r.threw then
    let r2 := updateData r.state (some mock)
    (r2.state, "error", r2.output)
  else (r.state, "connected", r.output)

/-- The failure continuation of `TBMDataMonitor.fetchData` (network or
HTTP error): status `error`, then `updateData` on the synthesized mock
batch. -/
def fetchDataFailure (st : MonitorState) (mock : BatchData) :
    MonitorState × String × Option UpdateOutput :=
  let r := updateData st (some mock)
  (r.state, "error", r.output)

/-! ### Session-level semantics

The monitor runs on the browser's single-threaded event loop.  A
reconciliation cycle is fetch (suspending) + `updateData` (atomic).
`Session` tracks, beside the monitor, how many `fetchData` calls are
awaiting their response (`outstanding`), the last applied render, and
the connection-status indicator. -/

structure Session where
  monitor : MonitorState
  outstanding : ℕ
  lastRender : Option UpdateOutput
  status : String

/-- The external events that drive the monitor: a timer fire, a manual
refresh, `stopMonitoring`, and the resolution (success or failure) of
one outstanding fetch, carrying the parsed payload and the mock batch
the error path would synthesize. -/
inductive SessionEvent where
  | timerTick
  | manualRefresh
  | stop
  | fetchSuccess (data : Option BatchData) (mock : BatchData)
  | fetchFailure (mock : BatchData)

/-- One event step.  The timer callback runs only while the interval is
installed and checks only `paused` before calling `fetchData`;
`refreshData` calls `fetchData` unconditionally; resolution applies the
corresponding `fetchData` continuation — there is no re-entrancy guard
and no stopped-check anywhere on these paths, mirroring the source. -/
def stepEvent (s : Session) : SessionEvent → Session
  | .timerTick =>
      if s.monitor.updateInterval && !s.monitor.paused then
        { s with outstanding := s.outstanding + 1 }
      else s
  | .manualRefresh => { s with outstanding := s.outstanding + 1 }
  | .stop => { s with monitor := stopMonitoring s.monitor }
  | .fetchSuccess data mock =>
      if s.outstanding = 0 then s
      else
        let r := fetchDataSuccess s.monitor data mock
        { monitor := r.1, outstanding := s.outstanding - 1,
          lastRender := match r.2.2 with | some o => some o | none => s.lastRender,
          status := r.2.1 }
  | .fetchFailure mock =>
      if s.outstanding = 0 then s
      else
        let r := fetchDataFailure s.monitor mock
        { monitor := r.1, outstanding := s.outstanding - 1,
          lastRender := match r.2.2 with | some o => some o | none => s.lastRender,
          status := r.2.1 }

/-- Fold a list of events over a session. -/
def runEvents (s : Session) (evs : List SessionEvent) : Session :=
  evs.foldl stepEvent s

/-- The session right after `init()`: `startMonitoring` has installed
the timer and issued the immediate first fetch, status `connecting`. -/
def initSession : Session :=
  { monitor := startMonitoring initialMonitor, outstanding := 1,
    lastRender := none, status := "connecting" }

/-! ### Batch/tick observation helpers -/

/-- A batch whose `features` array exists and has exactly the catalog
size (the shape a complete upstream payload has). -/
def wellFormedBatch (b : BatchData) : Bool :=
  match b.features with
  | some fs => fs.length == 31
  | none => false

/-- The raw current value the batch carries for a feature id. -/
def currentAt (fs : List FeatureData) (id : ℕ) : Option JSVal :=
  match fs.get? (id - 1) with
  | some fd => fd.current_value
  | none => none

/-- The next-step prediction the batch carries for a feature id. -/
def predictionAt (fs : List FeatureData) (id : ℕ) : Option JSVal :=
  match fs.get? (id - 1) with
  | some fd => fd.prediction_value
  | none => none

/-- `currentAt` lifted to a whole batch. -/
def currentAtBatch (b : BatchData) (id : ℕ) : Option JSVal :=
  match b.features with
  | some fs => currentAt fs id
  | none => none

/-- The prediction value a cycle on this batch records for a feature:
present exactly when the batch is buffer-ready and carries one. -/
def recordedAtBatch (b : BatchData) (id : ℕ) : Option JSVal :=
  if b.buffer_ready.getD false then
    match b.features with
    | some fs => predictionAt fs id
    | none => none
  else none

/-- Fold a per-tick observation sequence: keep the last non-absent
entry, defaulting to `d`. -/
def latestKnown (xs : List (Option JSVal)) (d : Option JSVal) : Option JSVal :=
  xs.foldl (fun acc x => match x with | some v => some v | none => acc) d

/-- Run a sequence of reconciliation cycles (state evolution only). -/
def runTicks (st : MonitorState) (bs : List BatchData) : MonitorState :=
  bs.foldl (fun s b => (updateData s (some b)).state) st

/-- The render one feature receives when computed against the state the
monitor held at the start of the tick — the reference rendering for the
two-pass sequencing claim (spec §4.1: classify and render every feature
from the prior cycle's state). -/
def renderFromPriorState (st : MonitorState) (features : List FeatureData)
    (bufferReady : Bool) (id : ℕ) : FeatureRender :=
  match features.get? (id - 1) with
  | some fd =>
      (updateFeatureDisplayWithoutSaving st id fd.current_value
        (determineDataStatus fd.current_value) fd.current_source
        fd.prediction_value bufferReady).1
  | none => ⟨⟨"--", ""⟩, ⟨"--", ""⟩, ⟨"--", ""⟩, ⟨"--", ""⟩⟩

/-- The change cell a cycle rendered for a feature id. -/
def changeCellOf (r : UpdateDataResult) (id : ℕ) : Option CellUpdate :=
  r.output.bind fun o => (o.renders.lookup id).map FeatureRender.change

/-- The t-time-prediction cell a cycle rendered for a feature id. -/
def tPredCellOf (r : UpdateDataResult) (id : ℕ) : Option CellUpdate :=
  r.output.bind fun o => (o.renders.lookup id).map FeatureRender.tPred

/-- The next-step-prediction cell a cycle rendered for a feature id. -/
def nextPredCellOf (r : UpdateDataResult) (id : ℕ) : Option CellUpdate :=
  r.output.bind fun o => (o.renders.lookup id).map FeatureRender.nextPred

/-- JavaScript truthiness of a value. -/
def jsTruthy : JSVal → Bool
  | .num q => decide (q ≠ 0)
  | .nan => false
  | .inf _ => true
  | .bool b => b
  | .str s => decide (s ≠ "")
  | .obj _ _ => true

/-- Written from the spec's words (C5): a raw value the spec calls
`valid` — "a finite number, or a tagged object carrying a `value` field
without a truthy `predicted` flag".  Kept separate from the code's
`determineDataStatus` so the two can be compared. -/
def validPerSpecC5 (v : JSVal) : Bool :=
  (match v with | .num _ => true | _ => false) ||
    (typeofIsObject v && (objValue v).isSome &&
      !(match objPredicted v with | some p => jsTruthy p | none => false))

/-- An all-absent features entry (test input). -/
def emptyFeatureData : FeatureData := ⟨none, none, none⟩

/-- A 31-entry features array whose feature 1 carries the given current
value from the api and nothing else (test input). -/
def featuresWithCurrent1 (v : Option JSVal) : List FeatureData :=
  ⟨v, some "api", none⟩ :: List.replicate 30 emptyFeatureData

/-- A 31-entry features array whose feature 1 carries the given
next-step prediction and nothing else (test input). -/
def featuresWithPrediction1 (p : Option JSVal) : List FeatureData :=
  ⟨none, none, p⟩ :: List.replicate 30 emptyFeatureData

/-- A well-formed batch, buffer not ready, whose feature 1 carries the
given current value (test input). -/
def tickBatch (v : Option JSVal) : BatchData :=
  ⟨some (featuresWithCurrent1 v), none, some false, none⟩

/-- A well-formed buffer-ready batch carrying a next-step prediction for
feature 1 (test input). -/
def predBatch (p : Option JSVal) : BatchData :=
  ⟨some (featuresWithPrediction1 p), none, some true, none⟩

/-- A well-formed, entirely absent batch with buffer not ready (test
input). -/
def blankBatch : BatchData :=
  ⟨some (List.replicate 31 emptyFeatureData), none, some false, none⟩

/-- A 32-entry (oversized) batch whose feature 1 carries current value 5
(test input for the batch-shape claim). -/
def oversizedBatch : BatchData :=
  ⟨some (⟨some (.num 5), some "api", none⟩ :: List.replicate 31 emptyFeatureData),
   some 1, some false, none⟩

/-! ### Machinery lemmas -/

theorem updateFeatureDisplay_snd_some_true (st : MonitorState) (id : ℕ) (cv : Option JSVal)
    (cs : String) (src : Option String) (v : JSVal) :
    (updateFeatureDisplayWithoutSaving st id cv cs src (some v) true).2 =
      { st with lastPredictionValues :=
          fun i => if i = id then some v else st.lastPredictionValues i } := rfl

theorem updateFeatureDisplay_snd_false (st : MonitorState) (id : ℕ) (cv : Option JSVal)
    (cs : String) (src : Option String) (pv : Option JSVal) :
    (updateFeatureDisplayWithoutSaving st id cv cs src pv false).2 = st := by
  cases pv <;> rfl

theorem updateFeatureDisplay_snd_none_true (st : MonitorState) (id : ℕ) (cv : Option JSVal)
    (cs : String) (src : Option String) :
    (updateFeatureDisplayWithoutSaving st id cv cs src none true).2 = st := rfl

theorem updateFeatureDisplay_lastValues (st : MonitorState) (id : ℕ) (cv : Option JSVal)
    (cs : String) (src : Option String) (pv : Option JSVal) (br : Bool) :
    ((updateFeatureDisplayWithoutSaving st id cv cs src pv br).2).lastValues = st.lastValues := by
  cases br
  · rw [updateFeatureDisplay_snd_false]
  · cases pv
    · rw [updateFeatureDisplay_snd_none_true]
    · rw [updateFeatureDisplay_snd_some_true]

theorem updateFeatureDisplay_lastPred (st : MonitorState) (id : ℕ) (cv : Option JSVal)
    (cs : String) (src : Option String) (pv : Option JSVal) (br : Bool) (i : ℕ) :
    ((updateFeatureDisplayWithoutSaving st id cv cs src pv br).2).lastPredictionValues i =
      (match pv, br with
       | some v, true => if i = id then some v else st.lastPredictionValues i
       | _, _ => st.lastPredictionValues i) := by
  cases br
  · cases pv <;> rw [updateFeatureDisplay_snd_false]
  · cases pv
    · rw [updateFeatureDisplay_snd_none_true]
    · rw [updateFeatureDisplay_snd_some_true]

theorem displayPass_lastValues (fs : List FeatureData) (br : Bool) (l : List Feature)
    (st : MonitorState) :
    (updateDataDisplayPass fs br l st).st.lastValues = st.lastValues := by
  induction l generalizing st with
  | nil => rfl
  | cons f rest ih =>
      cases heq : fs.get? (f.id - 1) with
      | none => simp only [updateDataDisplayPass, heq]
      | some fd =>
          simp only [updateDataDisplayPass, heq]
          rw [ih, updateFeatureDisplay_lastValues]

theorem savePass_lastPred (fs : List FeatureData) (l : List Feature) (st : MonitorState) :
    ((updateDataSavePass fs l st).1).lastPredictionValues = st.lastPredictionValues := by
  induction l generalizing st with
  | nil => rfl
  | cons f rest ih =>
      cases heq : fs.get? (f.id - 1) with
      | none => simp only [updateDataSavePass, heq]
      | some fd =>
          cases hcv : fd.current_value with
          | none =>
              simp only [updateDataSavePass, heq, hcv]
              exact ih _
          | some v =>
              simp only [updateDataSavePass, heq, hcv]
              exact ih _

theorem displayPass_no_throw (fs : List FeatureData) (br : Bool) (l : List Feature)
    (st : MonitorState) (h : ∀ f ∈ l, (fs.get? (f.id - 1)).isSome) :
    (updateDataDisplayPass fs br l st).threw = false := by
  induction l generalizing st with
  | nil => rfl
  | cons f rest ih =>
      obtain ⟨fd, heq⟩ := Option.isSome_iff_exists.mp (h f (List.mem_cons_self f rest))
      simp only [updateDataDisplayPass, heq]
      exact ih _ (fun g hg => h g (List.mem_cons_of_mem f hg))

theorem displayPass_throws (fs : List FeatureData) (br : Bool) (l : List Feature)
    (st : MonitorState) (h : ∃ f ∈ l, fs.get? (f.id - 1) = none) :
    (updateDataDisplayPass fs br l st).threw = true := by
  induction l generalizing st with
  | nil => simp at h
  | cons f rest ih =>
      obtain ⟨g, hg, hnone⟩ := h
      rcases List.mem_cons.mp hg with hgf | hgr
      · subst hgf
        simp only [updateDataDisplayPass, hnone]
      · cases heq : fs.get? (f.id - 1) with
        | none => simp only [updateDataDisplayPass, heq]
        | some fd =>
            simp only [updateDataDisplayPass, heq]
            exact ih _ ⟨g, hgr, hnone⟩

theorem savePass_no_throw (fs : List FeatureData) (l : List Feature)
    (st : MonitorState) (h : ∀ f ∈ l, (fs.get? (f.id - 1)).isSome) :
    (updateDataSavePass fs l st).2 = false := by
  induction l generalizing st with
  | nil => rfl
  | cons f rest ih =>
      obtain ⟨fd, heq⟩ := Option.isSome_iff_exists.mp (h f (List.mem_cons_self f rest))
      cases hcv : fd.current_value with
      | none =>
          simp only [updateDataSavePass, heq, hcv]
          exact ih _ (fun g hg => h g (List.mem_cons_of_mem f hg))
      | some v =>
          simp only [updateDataSavePass, heq, hcv]
          exact ih _ (fun g hg => h g (List.mem_cons_of_mem f hg))

theorem savePass_lastValues_notMem (fs : List FeatureData) (l : List Feature)
    (st : MonitorState) (i : ℕ) (hm : ∀ f ∈ l, f.id ≠ i) :
    ((updateDataSavePass fs l st).1).lastValues i = st.lastValues i := by
  induction l generalizing st with
  | nil => rfl
  | cons f rest ih =>
      have hrest : ∀ g ∈ rest, g.id ≠ i := fun g hg => hm g (List.mem_cons_of_mem f hg)
      have hne : ¬ i = f.id := fun hh => hm f (List.mem_cons_self f rest) hh.symm
      cases heq : fs.get? (f.id - 1) with
      | none => simp only [updateDataSavePass, heq]
      | some fd =>
          cases hcv : fd.current_value with
          | none =>
              simp only [updateDataSavePass, heq, hcv]
              exact ih _ hrest
          | some v =>
              simp only [updateDataSavePass, heq, hcv]
              rw [ih _ hrest]
              simp [hne]

theorem savePass_lastValues_mem (fs : List FeatureData) (l : List Feature)
    (st : MonitorState) (i : ℕ) (h : ∀ f ∈ l, (fs.get? (f.id - 1)).isSome)
    (hm : ∃ f ∈ l, f.id = i) :
    ((updateDataSavePass fs l st).1).lastValues i =
      (match currentAt fs i with
       | some v => some v
       | none => st.lastValues i) := by
  induction l generalizing st with
  | nil => simp at hm
  | cons f rest ih =>
      obtain ⟨fd, heq⟩ := Option.isSome_iff_exists.mp (h f (List.mem_cons_self f rest))
      have hrest : ∀ g ∈ rest, (fs.get? (g.id - 1)).isSome :=
        fun g hg => h g (List.mem_cons_of_mem f hg)
      by_cases hin : ∃ g ∈ rest, g.id = i
      · cases hcv : fd.current_value with
        | none =>
            simp only [updateDataSavePass, heq, hcv]
            exact ih _ hrest hin
        | some v =>
            simp only [updateDataSavePass, heq, hcv]
            rw [ih _ hrest hin]
            by_cases hif : i = f.id
            · have hcur : currentAt fs i = some v := by
                subst hif; simp only [currentAt, heq, hcv]
              rw [hcur]
            · cases hx : currentAt fs i <;> simp [hx, hif]
      · have hfi : f.id = i := by
          obtain ⟨g, hg, hgi⟩ := hm
          rcases List.mem_cons.mp hg with hgf | hgr
          · rw [← hgf]; exact hgi
          · exact absurd ⟨g, hgr, hgi⟩ hin
        have hnone : ∀ g ∈ rest, g.id ≠ i := by
          intro g hg hgi
          exact hin ⟨g, hg, hgi⟩
        have hcur : currentAt fs i = fd.current_value := by
          rw [← hfi]; simp only [currentAt, heq]
        cases hcv : fd.current_value with
        | none =>
            simp only [updateDataSavePass, heq, hcv]
            rw [savePass_lastValues_notMem fs rest _ i hnone]
            rw [hcur, hcv]
        | some v =>
            simp only [updateDataSavePass, heq, hcv]
            rw [savePass_lastValues_notMem fs rest _ i hnone]
            rw [hcur, hcv]
            simp [hfi]

theorem displayPass_lastPred_notMem (fs : List FeatureData) (br : Bool) (l : List Feature)
    (st : MonitorState) (i : ℕ) (hm : ∀ f ∈ l, f.id ≠ i) :
    (updateDataDisplayPass fs br l st).st.lastPredictionValues i =
      st.lastPredictionValues i := by
  induction l generalizing st with
  | nil => rfl
  | cons f rest ih =>
      have hrest : ∀ g ∈ rest, g.id ≠ i := fun g hg => hm g (List.mem_cons_of_mem f hg)
      have hne : ¬ i = f.id := fun hh => hm f (List.mem_cons_self f rest) hh.symm
      cases heq : fs.get? (f.id - 1) with
      | none => simp only [updateDataDisplayPass, heq]
      | some fd =>
          simp only [updateDataDisplayPass, heq]
          rw [ih _ hrest, updateFeatureDisplay_lastPred]
          cases fd.prediction_value <;> cases br <;> simp [hne]

theorem displayPass_lastPred_mem (fs : List FeatureData) (br : Bool) (l : List Feature)
    (st : MonitorState) (i : ℕ)
    (h : ∀ f ∈ l, (fs.get? (f.id - 1)).isSome)
    (hm : ∃ f ∈ l, f.id = i) :
    (updateDataDisplayPass fs br l st).st.lastPredictionValues i =
      (match (if br then predictionAt fs i else none) with
       | some v => some v
       | none => st.lastPredictionValues i) := by
  induction l generalizing st with
  | nil => simp at hm
  | cons f rest ih =>
      obtain ⟨fd, heq⟩ := Option.isSome_iff_exists.mp (h f (List.mem_cons_self f rest))
      have hrest : ∀ g ∈ rest, (fs.get? (g.id - 1)).isSome :=
        fun g hg => h g (List.mem_cons_of_mem f hg)
      simp only [updateDataDisplayPass, heq]
      by_cases hin : ∃ g ∈ rest, g.id = i
      · rw [ih _ hrest hin]
        cases hx : (if br then predictionAt fs i else none) with
        | some v => rfl
        | none =>
            rw [updateFeatureDisplay_lastPred]
            cases br with
            | false => cases fd.prediction_value <;> rfl
            | true =>
                have hpred : predictionAt fs i = none := by simpa using hx
                cases hpv : fd.prediction_value with
                | none => rfl
                | some v =>
                    by_cases hif : i = f.id
                    · exfalso
                      subst hif
                      have hsome : predictionAt fs f.id = some v := by
                        simp only [predictionAt, heq, hpv]
                      rw [hsome] at hpred
                      simp at hpred
                    · simp [hif]
      · have hfi : f.id = i := by
          obtain ⟨g, hg, hgi⟩ := hm
          rcases List.mem_cons.mp hg with hgf | hgr
          · rw [← hgf]; exact hgi
          · exact absurd ⟨g, hgr, hgi⟩ hin
        subst hfi
        have hnone : ∀ g ∈ rest, g.id ≠ f.id := by
          intro g hg hgi
          exact hin ⟨g, hg, hgi⟩
        have hpred : predictionAt fs f.id = fd.prediction_value := by
          simp only [predictionAt, heq]
        rw [displayPass_lastPred_notMem fs br rest _ f.id hnone,
          updateFeatureDisplay_lastPred]
        cases br with
        | false => cases fd.prediction_value <;> simp [hpred]
        | true =>
            cases hpv : fd.prediction_value with
            | none => simp [hpred, hpv]
            | some v => simp [hpred, hpv]

theorem renderFromPriorState_congr (st₁ st₂ : MonitorState) (fs : List FeatureData)
    (br : Bool) (id : ℕ)
    (h1 : st₁.lastPredictionValues id = st₂.lastPredictionValues id)
    (h2 : st₁.lastValues id = st₂.lastValues id) :
    renderFromPriorState st₁ fs br id = renderFromPriorState st₂ fs br id := by
  cases heq : fs.get? (id - 1) with
  | none => simp only [renderFromPriorState, heq]
  | some fd =>
      cases hpv : fd.prediction_value <;> cases br <;>
        simp only [renderFromPriorState, heq, hpv, updateFeatureDisplayWithoutSaving,
          updateChangeValueWithoutSaving, h1, h2]

theorem displayPass_renders (fs : List FeatureData) (br : Bool) (l : List Feature)
    (st : MonitorState)
    (h : ∀ f ∈ l, (fs.get? (f.id - 1)).isSome)
    (hnd : (l.map Feature.id).Nodup) :
    (updateDataDisplayPass fs br l st).renders =
      l.map (fun f => (f.id, renderFromPriorState st fs br f.id)) := by
  induction l generalizing st with
  | nil => rfl
  | cons f rest ih =>
      obtain ⟨fd, heq⟩ := Option.isSome_iff_exists.mp (h f (List.mem_cons_self f rest))
      have hrest : ∀ g ∈ rest, (fs.get? (g.id - 1)).isSome :=
        fun g hg => h g (List.mem_cons_of_mem f hg)
      rw [List.map_cons] at hnd
      have hndr : (rest.map Feature.id).Nodup := (List.nodup_cons.mp hnd).2
      have hfid : f.id ∉ rest.map Feature.id := (List.nodup_cons.mp hnd).1
      have hhead : (updateFeatureDisplayWithoutSaving st f.id fd.current_value
          (determineDataStatus fd.current_value) fd.current_source fd.prediction_value br).1 =
          renderFromPriorState st fs br f.id := by
        simp only [renderFromPriorState, heq]
      simp only [updateDataDisplayPass, heq, List.map_cons]
      rw [hhead, ih _ hrest hndr]
      refine congrArg (List.cons _) (List.map_congr_left ?_)
      intro g hg
      have hgid : ¬ g.id = f.id := by
        intro hh
        exact hfid (hh ▸ List.mem_map_of_mem Feature.id hg)
      have hp : ((updateFeatureDisplayWithoutSaving st f.id fd.current_value
          (determineDataStatus fd.current_value) fd.current_source fd.prediction_value
          br).2).lastPredictionValues g.id = st.lastPredictionValues g.id := by
        rw [updateFeatureDisplay_lastPred]
        cases fd.prediction_value <;> cases br <;> simp [hgid]
      have hv : ((updateFeatureDisplayWithoutSaving st f.id fd.current_value
          (determineDataStatus fd.current_value) fd.current_source fd.prediction_value
          br).2).lastValues g.id = st.lastValues g.id := by
        rw [updateFeatureDisplay_lastValues]
      exact congrArg (Prod.mk g.id) (renderFromPriorState_congr _ _ fs br g.id hp hv)

theorem lookup_map_by_id (l : List Feature) (g : ℕ → FeatureRender) (id : ℕ)
    (h : id ∈ l.map Feature.id) :
    (l.map (fun f => (f.id, g f.id))).lookup id = some (g id) := by
  induction l with
  | nil => simp at h
  | cons f rest ih =>
      rw [List.map_cons] at h
      rcases List.mem_cons.mp h with h1 | h2
      · simp [List.lookup, h1]
      · by_cases hid : id = f.id
        · simp [List.lookup, hid]
        · have hb : (id == f.id) = false := beq_false_of_ne hid
          simp [List.lookup, hb, ih h2]

theorem catalog_ids_nodup : (FEATURE_CONFIG.map Feature.id).Nodup := by decide

theorem catalog_id_index_lt : ∀ f ∈ FEATURE_CONFIG, f.id - 1 < 31 := by decide

theorem catalog_indices_present (fs : List FeatureData) (hlen : 31 ≤ fs.length) :
    ∀ f ∈ FEATURE_CONFIG, (fs.get? (f.id - 1)).isSome := by
  intro f hf
  cases heq : fs.get? (f.id - 1) with
  | some fd => rfl
  | none =>
      exfalso
      have hge := List.get?_eq_none.mp heq
      have hlt : f.id - 1 < 31 := catalog_id_index_lt f hf
      omega

theorem wellFormedBatch_elim (b : BatchData) (h : wellFormedBatch b = true) :
    ∃ fs, b.features = some fs ∧ fs.length = 31 := by
  cases hf : b.features with
  | none => simp [wellFormedBatch, hf] at h
  | some fs =>
      refine ⟨fs, rfl, ?_⟩
      simp only [wellFormedBatch, hf, beq_iff_eq] at h
      exact h

theorem updateData_no_throw (st : MonitorState) (d : BatchData) (fs : List FeatureData)
    (hfs : d.features = some fs) (hlen : 31 ≤ fs.length) :
    (updateData st (some d)).threw = false := by
  have hpres := catalog_indices_present fs hlen
  simp only [updateData, hfs, displayPass_no_throw fs _ FEATURE_CONFIG st hpres,
    savePass_no_throw fs FEATURE_CONFIG _ hpres, Bool.false_eq_true, if_false]

theorem updateData_output (st : MonitorState) (d : BatchData) (fs : List FeatureData)
    (hfs : d.features = some fs) (hlen : 31 ≤ fs.length) :
    (updateData st (some d)).output =
      some ⟨(updateDataDisplayPass fs (d.buffer_ready.getD false) FEATURE_CONFIG st).renders,
        (updateDataDisplayPass fs (d.buffer_ready.getD false) FEATURE_CONFIG st).validCount,
        (updateDataDisplayPass fs (d.buffer_ready.getD false) FEATURE_CONFIG st).missingCount,
        (updateDataDisplayPass fs (d.buffer_ready.getD false) FEATURE_CONFIG st).predictedCount⟩ := by
  have hpres := catalog_indices_present fs hlen
  simp only [updateData, hfs, displayPass_no_throw fs _ FEATURE_CONFIG st hpres,
    savePass_no_throw fs FEATURE_CONFIG _ hpres, Bool.false_eq_true, if_false]

theorem updateData_renders (st : MonitorState) (d : BatchData) (fs : List FeatureData)
    (hfs : d.features = some fs) (hlen : 31 ≤ fs.length) :
    (updateData st (some d)).output.map UpdateOutput.renders =
      some (FEATURE_CONFIG.map fun f =>
        (f.id, renderFromPriorState st fs (d.buffer_ready.getD false) f.id)) := by
  rw [updateData_output st d fs hfs hlen]
  exact congrArg some
    (displayPass_renders fs _ FEATURE_CONFIG st (catalog_indices_present fs hlen)
      catalog_ids_nodup)

theorem updateData_lastValues (st : MonitorState) (d : BatchData) (fs : List FeatureData)
    (hfs : d.features = some fs) (hlen : 31 ≤ fs.length) (i : ℕ) :
    (updateData st (some d)).state.lastValues i =
      if i ∈ catalogIds then
        (match currentAt fs i with
         | some v => some v
         | none => st.lastValues i)
      else st.lastValues i := by
  have hpres := catalog_indices_present fs hlen
  simp only [updateData, hfs, displayPass_no_throw fs _ FEATURE_CONFIG st hpres,
    savePass_no_throw fs FEATURE_CONFIG _ hpres, Bool.false_eq_true, if_false]
  by_cases hi : i ∈ catalogIds
  · obtain ⟨f, hf, hfi⟩ := List.mem_map.mp hi
    rw [savePass_lastValues_mem fs FEATURE_CONFIG _ i hpres ⟨f, hf, hfi⟩]
    rw [if_pos hi]
    cases currentAt fs i
    · rw [displayPass_lastValues]
    · rfl
  · rw [savePass_lastValues_notMem fs FEATURE_CONFIG _ i
      (fun f hf hfi => hi (hfi ▸ List.mem_map_of_mem Feature.id hf))]
    rw [displayPass_lastValues, if_neg hi]

theorem updateData_lastPred (st : MonitorState) (d : BatchData) (fs : List FeatureData)
    (hfs : d.features = some fs) (hlen : 31 ≤ fs.length) (i : ℕ) :
    (updateData st (some d)).state.lastPredictionValues i =
      if i ∈ catalogIds then
        (match (if d.buffer_ready.getD false then predictionAt fs i else none) with
         | some v => some v
         | none => st.lastPredictionValues i)
      else st.lastPredictionValues i := by
  have hpres := catalog_indices_present fs hlen
  simp only [updateData, hfs, displayPass_no_throw fs _ FEATURE_CONFIG st hpres,
    savePass_no_throw fs FEATURE_CONFIG _ hpres, Bool.false_eq_true, if_false]
  rw [show ∀ st' : MonitorState,
      ({ st' with lastData := some fs } : MonitorState).lastPredictionValues i =
        st'.lastPredictionValues i from fun st' => rfl]
  rw [congrFun (savePass_lastPred fs FEATURE_CONFIG _) i]
  by_cases hi : i ∈ catalogIds
  · obtain ⟨f, hf, hfi⟩ := List.mem_map.mp hi
    rw [displayPass_lastPred_mem fs _ FEATURE_CONFIG st i hpres ⟨f, hf, hfi⟩, if_pos hi]
  · rw [displayPass_lastPred_notMem fs _ FEATURE_CONFIG st i
      (fun f hf hfi => hi (hfi ▸ List.mem_map_of_mem Feature.id hf)), if_neg hi]

theorem runTicks_lastValues (st : MonitorState) (bs : List BatchData) (i : ℕ)
    (h : ∀ b ∈ bs, wellFormedBatch b = true) (hi : i ∈ catalogIds) :
    (runTicks st bs).lastValues i =
      latestKnown (bs.map fun b => currentAtBatch b i) (st.lastValues i) := by
  induction bs generalizing st with
  | nil => rfl
  | cons b rest ih =>
      obtain ⟨fs, hfs, hlen⟩ := wellFormedBatch_elim b (h b (List.mem_cons_self b rest))
      have hone : (updateData st (some b)).state.lastValues i =
          (match currentAtBatch b i with
           | some v => some v
           | none => st.lastValues i) := by
        rw [updateData_lastValues st b fs hfs hlen.ge i, if_pos hi]
        simp only [currentAtBatch, hfs]
      show (runTicks (updateData st (some b)).state rest).lastValues i = _
      rw [ih _ (fun b' hb' => h b' (List.mem_cons_of_mem b hb')), hone]
      rfl

theorem runTicks_lastPred (st : MonitorState) (bs : List BatchData) (i : ℕ)
    (h : ∀ b ∈ bs, wellFormedBatch b = true) (hi : i ∈ catalogIds) :
    (runTicks st bs).lastPredictionValues i =
      latestKnown (bs.map fun b => recordedAtBatch b i) (st.lastPredictionValues i) := by
  induction bs generalizing st with
  | nil => rfl
  | cons b rest ih =>
      obtain ⟨fs, hfs, hlen⟩ := wellFormedBatch_elim b (h b (List.mem_cons_self b rest))
      have hone : (updateData st (some b)).state.lastPredictionValues i =
          (match recordedAtBatch b i with
           | some v => some v
           | none => st.lastPredictionValues i) := by
        rw [updateData_lastPred st b fs hfs hlen.ge i, if_pos hi]
        simp only [recordedAtBatch, hfs]
      show (runTicks (updateData st (some b)).state rest).lastPredictionValues i = _
      rw [ih _ (fun b' hb' => h b' (List.mem_cons_of_mem b hb')), hone]
      rfl

theorem renderFromPriorState_change (st : MonitorState) (fs : List FeatureData)
    (br : Bool) (id : ℕ) (fd : FeatureData) (heq : fs.get? (id - 1) = some fd) :
    (renderFromPriorState st fs br id).change =
      updateChangeValueWithoutSaving st id fd.current_value := by
  cases hpv : fd.prediction_value <;> cases br <;>
    simp only [renderFromPriorState, heq, hpv, updateFeatureDisplayWithoutSaving]

theorem renderFromPriorState_tPred (st : MonitorState) (fs : List FeatureData)
    (br : Bool) (id : ℕ) (fd : FeatureData) (heq : fs.get? (id - 1) = some fd) :
    (renderFromPriorState st fs br id).tPred =
      (match st.lastPredictionValues id with
       | some p => (⟨formatValue p, "data-value predicted"⟩ : CellUpdate)
       | none => ⟨"--", "data-value missing"⟩) := by
  cases hpv : fd.prediction_value <;> cases br <;>
    simp only [renderFromPriorState, heq, hpv, updateFeatureDisplayWithoutSaving]

theorem renderFromPriorState_nextPred_collecting (st : MonitorState)
    (fs : List FeatureData) (id : ℕ) (fd : FeatureData) (heq : fs.get? (id - 1) = some fd) :
    (renderFromPriorState st fs false id).nextPred =
      ⟨"收集数据中...", "data-value collecting"⟩ := by
  cases hpv : fd.prediction_value <;>
    simp only [renderFromPriorState, heq, hpv, updateFeatureDisplayWithoutSaving]

theorem rendersLookup_updateData (st : MonitorState) (d : BatchData)
    (fs : List FeatureData) (hfs : d.features = some fs) (hlen : 31 ≤ fs.length)
    (id : ℕ) (hid : id ∈ catalogIds) :
    (updateData st (some d)).output.bind (fun o => o.renders.lookup id) =
      some (renderFromPriorState st fs (d.buffer_ready.getD false) id) := by
  rw [updateData_output st d fs hfs hlen]
  show ((updateDataDisplayPass fs (d.buffer_ready.getD false) FEATURE_CONFIG st).renders.lookup
    id) = _
  rw [displayPass_renders fs (d.buffer_ready.getD false) FEATURE_CONFIG st
    (catalog_indices_present fs hlen) catalog_ids_nodup]
  exact lookup_map_by_id FEATURE_CONFIG
    (renderFromPriorState st fs (d.buffer_ready.getD false)) id hid

theorem changeCellOf_updateData (st : MonitorState) (d : BatchData)
    (fs : List FeatureData) (hfs : d.features = some fs) (hlen : 31 ≤ fs.length)
    (id : ℕ) (hid : id ∈ catalogIds) :
    changeCellOf (updateData st (some d)) id =
      some ((renderFromPriorState st fs (d.buffer_ready.getD false) id).change) := by
  have h := rendersLookup_updateData st d fs hfs hlen id hid
  have hcomp : changeCellOf (updateData st (some d)) id =
      ((updateData st (some d)).output.bind fun o => o.renders.lookup id).map
        FeatureRender.change := by
    unfold changeCellOf
    cases (updateData st (some d)).output <;> rfl
  rw [hcomp, h]
  rfl

theorem tPredCellOf_updateData (st : MonitorState) (d : BatchData)
    (fs : List FeatureData) (hfs : d.features = some fs) (hlen : 31 ≤ fs.length)
    (id : ℕ) (hid : id ∈ catalogIds) :
    tPredCellOf (updateData st (some d)) id =
      some ((renderFromPriorState st fs (d.buffer_ready.getD false) id).tPred) := by
  have h := rendersLookup_updateData st d fs hfs hlen id hid
  have hcomp : tPredCellOf (updateData st (some d)) id =
      ((updateData st (some d)).output.bind fun o => o.renders.lookup id).map
        FeatureRender.tPred := by
    unfold tPredCellOf
    cases (updateData st (some d)).output <;> rfl
  rw [hcomp, h]
  rfl

theorem stepEvent_fetchSuccess_no_throw (s : Session) (d : Option BatchData)
    (mock : BatchData) (hout : ¬ s.outstanding = 0)
    (hthrew : (updateData s.monitor d).threw = false) :
    stepEvent s (.fetchSuccess d mock) =
      { monitor := (updateData s.monitor d).state, outstanding := s.outstanding - 1,
        lastRender :=
          (match (updateData s.monitor d).output with
           | some o => some o
           | none => s.lastRender),
        status := "connected" } := by
  simp only [stepEvent, if_neg hout, fetchDataSuccess, hthrew, Bool.false_eq_true, if_false]

theorem runEvents_ticks (n : ℕ) : ∀ (s : Session), s.monitor.updateInterval = true →
    s.monitor.paused = false →
    runEvents s (List.replicate n SessionEvent.timerTick) =
      { s with outstanding := s.outstanding + n } := by
  induction n with
  | zero => intro s _ _; rfl
  | succ n ih =>
      intro s h1 h2
      rw [List.replicate_succ]
      show runEvents (stepEvent s .timerTick) (List.replicate n .timerTick) = _
      have hstep : stepEvent s .timerTick = { s with outstanding := s.outstanding + 1 } := by
        simp only [stepEvent, h1, h2]
        rfl
      rw [hstep]
      rw [ih { s with outstanding := s.outstanding + 1 } h1 h2]
      have harith : s.outstanding + 1 + n = s.outstanding + (n + 1) := by omega
      rw [harith]

theorem changeCell_formula (st : MonitorState) (id : ℕ) (c l : ℚ)
    (hlast : st.lastValues id = some (.num l)) (hl : l ≠ 0) :
    updateChangeValueWithoutSaving st id (some (.num c)) =
      (if |c - l| < 1 / 10000 then ⟨"0", "change-value no-change"⟩
       else if 0 < c - l then
         ⟨"+" ++ formatValue (.num (c - l)) ++ " (+" ++
           toFixed ((c - l) / |l| * 100) 1 ++ "%)", "change-value increase"⟩
       else
         ⟨formatValue (.num (c - l)) ++ " (" ++
           toFixed ((c - l) / |l| * 100) 1 ++ "%)", "change-value decrease"⟩) := by
  have habs : ¬ |l| = 0 := abs_ne_zero.mpr hl
  simp only [updateChangeValueWithoutSaving, hlast, jsSub, toNumber, jsAbs, jsMul, jsDiv,
    jsLtQ, jsGtZero, jsToFixed, if_neg habs, decide_eq_true_eq]

theorem toFixed_eval (x : ℚ) (d n : ℕ)
    (h : jsRound (|x| * 10 ^ d) = (n : ℤ)) :
    toFixed x d =
      (if d = 0 then (if x < 0 then "-" else "") ++ toString n
       else (if x < 0 then "-" else "") ++ toString (n / 10 ^ d) ++ "." ++
         padZeros (toString (n % 10 ^ d)) d) := by
  unfold toFixed
  rw [h]
  by_cases hd : d = 0 <;> by_cases hx : x < 0 <;> simp [hd, hx, Int.toNat_natCast]

theorem toExponential2_eval (x : ℚ) (k e m : ℕ)
    (hk : (⌊|x|⌋).toNat = k)
    (hlog : Nat.log 10 k = e)
    (hm : jsRound (|x| / 10 ^ e * 100) = (m : ℤ)) :
    toExponential2 x =
      (if m ≥ 1000 then (if x < 0 then "-" else "") ++ "1.00e+" ++ toString (e + 1)
       else (if x < 0 then "-" else "") ++ toString (m / 100) ++ "." ++
         padZeros (toString (m % 100)) 2 ++ "e+" ++ toString e) := by
  simp only [toExponential2]
  rw [hk, hlog, hm]
  by_cases h1000 : m ≥ 1000 <;> by_cases hx : x < 0 <;>
    simp [h1000, hx, Int.toNat_natCast]

/-! ### Claim theorems -/

/-- C1: across reconciliation cycles, `lastValues[featureId]` is
updated to the current tick's value exactly when that value is
non-absent, so after any sequence of well-formed ticks it equals the
most recent non-absent current value seen (or the initial entry when
none was seen).  First conjunct: the single-tick update rule; second
conjunct: the N-tick fold. -/
theorem c1_lastValue_updated_iff_present :
    (∀ (st : MonitorState) (b : BatchData) (id : ℕ), wellFormedBatch b = true →
      id ∈ catalogIds →
      (updateData st (some b)).state.lastValues id =
        (match currentAtBatch b id with
         | some v => some v
         | none => st.lastValues id)) ∧
    (∀ (st : MonitorState) (bs : List BatchData) (id : ℕ),
      (∀ b ∈ bs, wellFormedBatch b = true) → id ∈ catalogIds →
      (runTicks st bs).lastValues id =
        latestKnown (bs.map fun b => currentAtBatch b id) (st.lastValues id)) := by
  constructor
  · intro st b id hwf hid
    obtain ⟨fs, hfs, hlen⟩ := wellFormedBatch_elim b hwf
    rw [updateData_lastValues st b fs hfs hlen.ge id, if_pos hid]
    simp only [currentAtBatch, hfs]
  · exact fun st bs id h hid => runTicks_lastValues st bs id h hid

/-- Witness for C1: two concrete ticks — value `5` then an absent
value — leave `lastValues[1] = 5`, the most recent non-absent value. -/
theorem c1_witness :
    (∀ b ∈ [tickBatch (some (.num 5)), tickBatch none], wellFormedBatch b = true) ∧
    1 ∈ catalogIds ∧
    ((runTicks initialMonitor [tickBatch (some (.num 5)), tickBatch none]).lastValues 1 =
      latestKnown ([tickBatch (some (.num 5)), tickBatch none].map
        fun b => currentAtBatch b 1) (initialMonitor.lastValues 1)) ∧
    latestKnown ([tickBatch (some (.num 5)), tickBatch none].map
      fun b => currentAtBatch b 1) (initialMonitor.lastValues 1) = some (.num 5) :=
  ⟨by decide, by decide,
    c1_lastValue_updated_iff_present.2 initialMonitor
      [tickBatch (some (.num 5)), tickBatch none] 1 (by decide) (by decide), rfl⟩

/-- C5 counterexample: the code classifies `Infinity` as `valid`
(`typeof Infinity === 'number'` and `!isNaN(Infinity)`), and likewise an
object whose `predicted` field is truthy but not strictly `true`
(e.g. `{value: 5, predicted: 1}`), while the claim's characterization
of `valid` ("finite number, or object with a value field without a
truthy predicted flag") excludes both. -/
theorem c5_counterexample :
    (determineDataStatus (some (.inf false)) = "valid" ∧
      validPerSpecC5 (.inf false) = false) ∧
    (determineDataStatus (some (.obj (some (.num 5)) (some (.num 1)))) = "valid" ∧
      validPerSpecC5 (.obj (some (.num 5)) (some (.num 1))) = false) := by
  refine ⟨⟨rfl, rfl⟩, ⟨rfl, rfl⟩⟩

/-- C5 (amended): `determineDataStatus` is total and returns exactly one
of the four statuses: `missing` exactly on absent input; `predicted`
exactly on an object whose `predicted` field is strictly `true`;
`valid` exactly on a non-NaN number (finite or ±Infinity) or an object
with a defined `value` field whose `predicted` field is not strictly
`true`; `error` for every other shape. -/
theorem c5_classify_total :
    ∀ v : Option JSVal,
      (determineDataStatus v = "missing" ∨ determineDataStatus v = "predicted" ∨
        determineDataStatus v = "valid" ∨ determineDataStatus v = "error") ∧
      (determineDataStatus v = "missing" ↔ v = none) ∧
      (determineDataStatus v = "predicted" ↔
        ∃ w, v = some w ∧ typeofIsObject w = true ∧ isStrictTrue (objPredicted w) = true) ∧
      (determineDataStatus v = "valid" ↔
        ∃ w, v = some w ∧
          ((typeofIsNumber w = true ∧ jsIsNaN w = false) ∨
           (typeofIsObject w = true ∧ isStrictTrue (objPredicted w) = false ∧
             (objValue w).isSome = true))) := by
  intro v
  cases v with
  | none =>
      refine ⟨Or.inl rfl, ?_, ?_, ?_⟩ <;>
        simp [determineDataStatus]
  | some w =>
      cases w with
      | num q =>
          refine ⟨?_, ?_, ?_, ?_⟩ <;>
            simp [determineDataStatus, typeofIsObject, typeofIsNumber, jsIsNaN,
              isStrictTrue, objPredicted, objValue]
      | nan =>
          refine ⟨?_, ?_, ?_, ?_⟩ <;>
            simp [determineDataStatus, typeofIsObject, typeofIsNumber, jsIsNaN,
              isStrictTrue, objPredicted, objValue]
      | inf neg =>
          refine ⟨?_, ?_, ?_, ?_⟩ <;>
            simp [determineDataStatus, typeofIsObject, typeofIsNumber, jsIsNaN,
              isStrictTrue, objPredicted, objValue]
      | bool b =>
          refine ⟨?_, ?_, ?_, ?_⟩ <;>
            simp [determineDataStatus, typeofIsObject, typeofIsNumber, jsIsNaN,
              isStrictTrue, objPredicted, objValue]
      | str s =>
          refine ⟨?_, ?_, ?_, ?_⟩ <;>
            simp [determineDataStatus, typeofIsObject, typeofIsNumber, jsIsNaN,
              isStrictTrue, objPredicted, objValue]
      | obj val pred =>
          cases hp : isStrictTrue pred <;> cases hv : val.isSome <;>
            refine ⟨?_, ?_, ?_, ?_⟩ <;>
              simp [determineDataStatus, typeofIsObject, typeofIsNumber, jsIsNaN,
                objPredicted, objValue, hp, hv]

/-- C9 counterexample: `init` issues an immediate fetch (one cycle in
flight); a timer tick or a manual refresh arriving while it is still
outstanding starts a second concurrent fetch-and-reconcile cycle —
nothing suppresses it. -/
theorem c9_counterexample :
    initSession.outstanding = 1 ∧
    (stepEvent initSession SessionEvent.timerTick).outstanding = 2 ∧
    (stepEvent initSession SessionEvent.manualRefresh).outstanding = 2 :=
  ⟨rfl, rfl, rfl⟩

/-- C9 (amended): the code has no re-entrancy guard: every timer tick
while running and unpaused issues another fetch regardless of how many
are outstanding, so after n ticks on an un-resolved session n+1 cycles
are in flight; a manual refresh likewise always issues a fetch. -/
theorem c9_no_reentrancy_guard :
    (∀ n : ℕ, (runEvents initSession (List.replicate n SessionEvent.timerTick)).outstanding =
      n + 1) ∧
    (∀ s : Session, (stepEvent s SessionEvent.manualRefresh).outstanding =
      s.outstanding + 1) := by
  constructor
  · intro n
    rw [runEvents_ticks n initSession rfl rfl]
    show 1 + n = n + 1
    omega
  · intro s
    rfl

/-- C10: `formatValue` is total: the marker `'--'` for every input that
is not a number, is NaN or is not finite; exponential form with 2
digits above `1e10` in magnitude; otherwise 0 decimals at `≥ 1000`,
2 decimals at `≥ 1`, 4 decimals below (in particular
`formatValue(13.1) = "13.10"`), each band checked on a concrete
representative, with `1e10` itself in the fixed-point regime. -/
theorem c10_formatValue_total :
    formatValue .nan = "--" ∧
    (∀ b, formatValue (.inf b) = "--") ∧
    (∀ b, formatValue (.bool b) = "--") ∧
    (∀ s, formatValue (.str s) = "--") ∧
    (∀ o p, formatValue (.obj o p) = "--") ∧
    formatValue (.num (2 * 10 ^ 10)) = "2.00e+10" ∧
    formatValue (.num (-(2 * 10 ^ 10 + 5))) = "-2.00e+10" ∧
    formatValue (.num (10 ^ 10)) = "10000000000" ∧
    formatValue (.num 1500) = "1500" ∧
    formatValue (.num (131 / 10)) = "13.10" ∧
    formatValue (.num 1) = "1.00" ∧
    formatValue (.num (1 / 2)) = "0.5000" ∧
    formatValue (.num (-5)) = "-5.0000" := by
  refine ⟨rfl, fun _ => rfl, fun _ => rfl, fun _ => rfl, fun _ _ => rfl,
    ?_, ?_, ?_, ?_, ?_, ?_, ?_, ?_⟩
  · have habs : |(2 * 10 ^ 10 : ℚ)| = 2 * 10 ^ 10 := abs_of_nonneg (by norm_num)
    have hfl : (⌊|(2 * 10 ^ 10 : ℚ)|⌋).toNat = 20000000000 := by
      rw [habs, show ⌊(2 * 10 ^ 10 : ℚ)⌋ = ((20000000000 : ℕ) : ℤ) from by norm_num]
      rfl
    have hlog : Nat.log 10 20000000000 = 10 :=
      Nat.log_eq_of_pow_le_of_lt_pow (by norm_num) (by norm_num)
    have hm : jsRound (|(2 * 10 ^ 10 : ℚ)| / 10 ^ 10 * 100) = ((200 : ℕ) : ℤ) := by
      rw [jsRound, habs]; norm_num
    simp only [formatValue]
    rw [if_pos (by rw [habs]; norm_num : |(2 * 10 ^ 10 : ℚ)| > 10 ^ 10)]
    rw [toExponential2_eval _ _ _ _ hfl hlog hm, if_neg (by norm_num : ¬ (2 * 10 ^ 10 : ℚ) < 0)]
    decide
  · have hneg : (-(2 * 10 ^ 10 + 5) : ℚ) < 0 := by norm_num
    have habs : |(-(2 * 10 ^ 10 + 5) : ℚ)| = 2 * 10 ^ 10 + 5 := by
      rw [abs_of_neg hneg]; norm_num
    have hfl : (⌊|(-(2 * 10 ^ 10 + 5) : ℚ)|⌋).toNat = 20000000005 := by
      rw [habs, show ⌊(2 * 10 ^ 10 + 5 : ℚ)⌋ = ((20000000005 : ℕ) : ℤ) from by norm_num]
      rfl
    have hlog : Nat.log 10 20000000005 = 10 :=
      Nat.log_eq_of_pow_le_of_lt_pow (by norm_num) (by norm_num)
    have hm : jsRound (|(-(2 * 10 ^ 10 + 5) : ℚ)| / 10 ^ 10 * 100) = ((200 : ℕ) : ℤ) := by
      rw [jsRound, habs]
      norm_num
    simp only [formatValue]
    rw [if_pos (by rw [habs]; norm_num : |(-(2 * 10 ^ 10 + 5) : ℚ)| > 10 ^ 10)]
    rw [toExponential2_eval _ _ _ _ hfl hlog hm, if_pos hneg]
    decide
  · have habs : |(10 ^ 10 : ℚ)| = 10 ^ 10 := abs_of_nonneg (by norm_num)
    have hr : jsRound (|(10 ^ 10 : ℚ)| * 10 ^ 0) = ((10000000000 : ℕ) : ℤ) := by
      rw [jsRound, habs]; norm_num
    simp only [formatValue]
    rw [if_neg (by rw [habs]; norm_num : ¬ |(10 ^ 10 : ℚ)| > 10 ^ 10),
      if_pos (by norm_num : (10 ^ 10 : ℚ) ≥ 1000)]
    rw [toFixed_eval _ _ _ hr, if_neg (by norm_num : ¬ (10 ^ 10 : ℚ) < 0)]
    decide
  · have habs : |(1500 : ℚ)| = 1500 := abs_of_nonneg (by norm_num)
    have hr : jsRound (|(1500 : ℚ)| * 10 ^ 0) = ((1500 : ℕ) : ℤ) := by
      rw [jsRound, habs]; norm_num
    simp only [formatValue]
    rw [if_neg (by rw [habs]; norm_num : ¬ |(1500 : ℚ)| > 10 ^ 10),
      if_pos (by norm_num : (1500 : ℚ) ≥ 1000)]
    rw [toFixed_eval _ _ _ hr, if_neg (by norm_num : ¬ (1500 : ℚ) < 0)]
    decide
  · have habs : |(131 / 10 : ℚ)| = 131 / 10 := abs_of_nonneg (by norm_num)
    have hr : jsRound (|(131 / 10 : ℚ)| * 10 ^ 2) = ((1310 : ℕ) : ℤ) := by
      rw [jsRound, habs]; norm_num
    simp only [formatValue]
    rw [if_neg (by rw [habs]; norm_num : ¬ |(131 / 10 : ℚ)| > 10 ^ 10),
      if_neg (by norm_num : ¬ (131 / 10 : ℚ) ≥ 1000),
      if_pos (by norm_num : (131 / 10 : ℚ) ≥ 1)]
    rw [toFixed_eval _ _ _ hr, if_neg (by norm_num : ¬ (131 / 10 : ℚ) < 0)]
    decide
  · have habs : |(1 : ℚ)| = 1 := abs_of_nonneg (by norm_num)
    have hr : jsRound (|(1 : ℚ)| * 10 ^ 2) = ((100 : ℕ) : ℤ) := by
      rw [jsRound, habs]; norm_num
    simp only [formatValue]
    rw [if_neg (by rw [habs]; norm_num : ¬ |(1 : ℚ)| > 10 ^ 10),
      if_neg (by norm_num : ¬ (1 : ℚ) ≥ 1000),
      if_pos (by norm_num : (1 : ℚ) ≥ 1)]
    rw [toFixed_eval _ _ _ hr, if_neg (by norm_num : ¬ (1 : ℚ) < 0)]
    decide
  · have habs : |(1 / 2 : ℚ)| = 1 / 2 := abs_of_nonneg (by norm_num)
    have hr : jsRound (|(1 / 2 : ℚ)| * 10 ^ 4) = ((5000 : ℕ) : ℤ) := by
      rw [jsRound, habs]; norm_num
    simp only [formatValue]
    rw [if_neg (by rw [habs]; norm_num : ¬ |(1 / 2 : ℚ)| > 10 ^ 10),
      if_neg (by norm_num : ¬ (1 / 2 : ℚ) ≥ 1000),
      if_neg (by norm_num : ¬ (1 / 2 : ℚ) ≥ 1)]
    rw [toFixed_eval _ _ _ hr, if_neg (by norm_num : ¬ (1 / 2 : ℚ) < 0)]
    decide
  · have habs : |(-5 : ℚ)| = 5 := by rw [abs_of_neg (by norm_num : (-5 : ℚ) < 0)]; norm_num
    have hr : jsRound (|(-5 : ℚ)| * 10 ^ 4) = ((50000 : ℕ) : ℤ) := by
      rw [jsRound, habs]; norm_num
    simp only [formatValue]
    rw [if_neg (by rw [habs]; norm_num : ¬ |(-5 : ℚ)| > 10 ^ 10),
      if_neg (by norm_num : ¬ (-5 : ℚ) ≥ 1000),
      if_neg (by norm_num : ¬ (-5 : ℚ) ≥ 1)]
    rw [toFixed_eval _ _ _ hr, if_pos (by norm_num : (-5 : ℚ) < 0)]
    decide

/-- C2: whenever the current value is numeric and a last known value
exists, the change cell carries `change = current - lastKnown` and
`changePercent = change / |lastKnown| * 100`, classified `no-change`
when `|change| < 1e-4`, else `increase`/`decrease` (first conjunct);
with no prior known value the cell is the unknown marker (second
conjunct); and missing ticks are transparent: `v1` at tick 1, missing
at ticks 2–4, `v2` at tick 5 yields the change cell computed from
`v2 - v1` (third conjunct). -/
theorem c2_change_computation :
    (∀ (st : MonitorState) (id : ℕ) (c l : ℚ),
      st.lastValues id = some (.num l) → l ≠ 0 →
      updateChangeValueWithoutSaving st id (some (.num c)) =
        (if |c - l| < 1 / 10000 then ⟨"0", "change-value no-change"⟩
         else if 0 < c - l then
           ⟨"+" ++ formatValue (.num (c - l)) ++ " (+" ++
             toFixed ((c - l) / |l| * 100) 1 ++ "%)", "change-value increase"⟩
         else
           ⟨formatValue (.num (c - l)) ++ " (" ++
             toFixed ((c - l) / |l| * 100) 1 ++ "%)", "change-value decrease"⟩)) ∧
    (∀ (st : MonitorState) (id : ℕ) (c : ℚ), st.lastValues id = none →
      updateChangeValueWithoutSaving st id (some (.num c)) =
        ⟨"--", "change-value no-change"⟩) ∧
    (∀ v1 v2 : ℚ, v1 ≠ 0 →
      changeCellOf
        (updateData (runTicks initialMonitor
          [tickBatch (some (.num v1)), tickBatch none, tickBatch none, tickBatch none])
          (some (tickBatch (some (.num v2))))) 1 =
        some (if |v2 - v1| < 1 / 10000 then ⟨"0", "change-value no-change"⟩
          else if 0 < v2 - v1 then
            ⟨"+" ++ formatValue (.num (v2 - v1)) ++ " (+" ++
              toFixed ((v2 - v1) / |v1| * 100) 1 ++ "%)", "change-value increase"⟩
          else
            ⟨formatValue (.num (v2 - v1)) ++ " (" ++
              toFixed ((v2 - v1) / |v1| * 100) 1 ++ "%)", "change-value decrease"⟩)) := by
  refine ⟨fun st id c l hlast hl => changeCell_formula st id c l hlast hl, ?_, ?_⟩
  · intro st id c hnone
    simp only [updateChangeValueWithoutSaving, hnone]
  · intro v1 v2 hv1
    have hwfm : ∀ v, wellFormedBatch (tickBatch v) = true := fun v => by
      simp [wellFormedBatch, tickBatch, featuresWithCurrent1]
    have hwf4 : ∀ b ∈ [tickBatch (some (.num v1)), tickBatch none, tickBatch none,
        tickBatch none], wellFormedBatch b = true := by
      intro b hb
      simp only [List.mem_cons, List.not_mem_nil, or_false] at hb
      rcases hb with rfl | rfl | rfl | rfl <;> exact hwfm _
    have hlast : (runTicks initialMonitor
        [tickBatch (some (.num v1)), tickBatch none, tickBatch none,
          tickBatch none]).lastValues 1 = some (.num v1) := by
      rw [runTicks_lastValues initialMonitor _ 1 hwf4 (by decide)]
      rfl
    have hfs : (tickBatch (some (.num v2))).features =
        some (featuresWithCurrent1 (some (.num v2))) := rfl
    have hlen : 31 ≤ (featuresWithCurrent1 (some (.num v2))).length := by
      simp [featuresWithCurrent1]
    rw [changeCellOf_updateData _ _ _ hfs hlen 1 (by decide)]
    rw [renderFromPriorState_change _ (featuresWithCurrent1 (some (.num v2))) _ 1
      ⟨some (.num v2), some "api", none⟩ rfl]
    exact congrArg some (changeCell_formula _ 1 v2 v1 hlast hv1)

/-- Witness for C2: the missing-transparency conjunct at `v1 = 2`,
`v2 = 3`. -/
theorem c2_witness :
    (2 : ℚ) ≠ 0 ∧
    changeCellOf
      (updateData (runTicks initialMonitor
        [tickBatch (some (.num 2)), tickBatch none, tickBatch none, tickBatch none])
        (some (tickBatch (some (.num 3))))) 1 =
      some (if |(3 : ℚ) - 2| < 1 / 10000 then ⟨"0", "change-value no-change"⟩
        else if 0 < (3 : ℚ) - 2 then
          ⟨"+" ++ formatValue (.num ((3 : ℚ) - 2)) ++ " (+" ++
            toFixed (((3 : ℚ) - 2) / |(2 : ℚ)| * 100) 1 ++ "%)", "change-value increase"⟩
        else
          ⟨formatValue (.num ((3 : ℚ) - 2)) ++ " (" ++
            toFixed (((3 : ℚ) - 2) / |(2 : ℚ)| * 100) 1 ++ "%)",
            "change-value decrease"⟩) :=
  ⟨by norm_num, c2_change_computation.2.2 2 3 (by norm_num)⟩

/-- C3 counterexample: tick 1 records prediction 7 (buffer ready),
tick 2 records nothing (buffer not ready), yet at tick 3 the t-time
cell shows the tick-1 value, not the unavailable marker — contradicting
"equals the value recorded during tick k-1, or `--` (the spec adds: the
unavailable marker if tick k-1 had no ready prediction)". -/
theorem c3_counterexample :
    recordedAtBatch (predBatch (some (.num 7))) 1 = some (.num 7) ∧
    recordedAtBatch blankBatch 1 = none ∧
    tPredCellOf
      (updateData (runTicks initialMonitor [predBatch (some (.num 7)), blankBatch])
        (some blankBatch)) 1 =
      some ⟨formatValue (.num 7), "data-value predicted"⟩ ∧
    (⟨formatValue (.num 7), "data-value predicted"⟩ : CellUpdate) ≠
      ⟨"--", "data-value missing"⟩ := by
  refine ⟨rfl, rfl, ?_, ?_⟩
  · have hpred : (runTicks initialMonitor
        [predBatch (some (.num 7)), blankBatch]).lastPredictionValues 1 =
        some (.num 7) := by
      rw [runTicks_lastPred initialMonitor _ 1 (by decide) (by decide)]
      rfl
    rw [tPredCellOf_updateData _ blankBatch (List.replicate 31 emptyFeatureData) rfl
      (by decide) 1 (by decide)]
    rw [renderFromPriorState_tPred _ (List.replicate 31 emptyFeatureData) _ 1
      emptyFeatureData rfl]
    rw [hpred]
  · intro hcontra
    exact absurd (congrArg CellUpdate.cls hcontra) (by decide)

/-- C3 (amended): the t-time cell rendered during a tick equals
`lastPredictionValues` as it stood at the start of that tick — i.e. the
most recently recorded next-step prediction from any earlier tick, or
`--` when none was ever recorded — independently of the tick's own
batch (first conjunct: the cell from the start-of-tick state; second
conjunct: that state is the latest recorded prediction over the run). -/
theorem c3_t_time_prediction :
    (∀ (st : MonitorState) (d : BatchData) (fs : List FeatureData),
      d.features = some fs → 31 ≤ fs.length → ∀ id ∈ catalogIds,
      tPredCellOf (updateData st (some d)) id =
        some (match st.lastPredictionValues id with
              | some p => (⟨formatValue p, "data-value predicted"⟩ : CellUpdate)
              | none => ⟨"--", "data-value missing"⟩)) ∧
    (∀ (st : MonitorState) (bs : List BatchData) (id : ℕ),
      (∀ b ∈ bs, wellFormedBatch b = true) → id ∈ catalogIds →
      (runTicks st bs).lastPredictionValues id =
        latestKnown (bs.map fun b => recordedAtBatch b id)
          (st.lastPredictionValues id)) := by
  constructor
  · intro st d fs hfs hlen id hid
    obtain ⟨f, hf, hfi⟩ := List.mem_map.mp hid
    obtain ⟨fd, heq⟩ := Option.isSome_iff_exists.mp (catalog_indices_present fs hlen f hf)
    rw [tPredCellOf_updateData st d fs hfs hlen id hid]
    rw [renderFromPriorState_tPred st fs _ id fd (hfi ▸ heq)]
  · exact fun st bs id h hid => runTicks_lastPred st bs id h hid

/-- Witness for C3's amended theorem: a first tick on an all-absent
batch renders the t-time cell from the (empty) initial prediction
state. -/
theorem c3_witness :
    blankBatch.features = some (List.replicate 31 emptyFeatureData) ∧
    31 ≤ (List.replicate 31 emptyFeatureData).length ∧ 1 ∈ catalogIds ∧
    tPredCellOf (updateData initialMonitor (some blankBatch)) 1 =
      some (match initialMonitor.lastPredictionValues 1 with
            | some p => (⟨formatValue p, "data-value predicted"⟩ : CellUpdate)
            | none => ⟨"--", "data-value missing"⟩) :=
  ⟨rfl, by decide, by decide,
    c3_t_time_prediction.1 initialMonitor blankBatch _ rfl (by decide) 1 (by decide)⟩

/-- C4: on a cycle whose batch carries `buffer_ready = false`, no
feature's stored prediction changes and all 31 next-step cells render
the collecting marker (first conjunct); in general, a feature's stored
prediction is set exactly when the batch is buffer-ready and supplies a
non-absent prediction for it (second conjunct). -/
theorem c4_buffer_ready_gating :
    (∀ (st : MonitorState) (d : BatchData) (fs : List FeatureData),
      d.features = some fs → 31 ≤ fs.length → d.buffer_ready = some false →
      (∀ i, (updateData st (some d)).state.lastPredictionValues i =
        st.lastPredictionValues i) ∧
      (∃ out, (updateData st (some d)).output = some out ∧ out.renders.length = 31 ∧
        ∀ pr ∈ out.renders, pr.2.nextPred =
          (⟨"收集数据中...", "data-value collecting"⟩ : CellUpdate))) ∧
    (∀ (st : MonitorState) (d : BatchData) (fs : List FeatureData),
      d.features = some fs → 31 ≤ fs.length → ∀ id ∈ catalogIds,
      (updateData st (some d)).state.lastPredictionValues id =
        (match (if d.buffer_ready.getD false then predictionAt fs id else none) with
         | some v => some v
         | none => st.lastPredictionValues id)) := by
  constructor
  · intro st d fs hfs hlen hbr
    have hbrf : d.buffer_ready.getD false = false := by rw [hbr]; rfl
    constructor
    · intro i
      rw [updateData_lastPred st d fs hfs hlen i, hbrf]
      by_cases hi : i ∈ catalogIds <;> simp [hi]
    · refine ⟨_, updateData_output st d fs hfs hlen, ?_, ?_⟩
      · rw [displayPass_renders fs _ FEATURE_CONFIG st (catalog_indices_present fs hlen)
          catalog_ids_nodup, List.length_map]
        rfl
      · intro pr hpr
        rw [displayPass_renders fs _ FEATURE_CONFIG st (catalog_indices_present fs hlen)
          catalog_ids_nodup] at hpr
        obtain ⟨f, hf, hfeq⟩ := List.mem_map.mp hpr
        obtain ⟨fd, heq⟩ := Option.isSome_iff_exists.mp
          (catalog_indices_present fs hlen f hf)
        rw [← hfeq]
        show (renderFromPriorState st fs (d.buffer_ready.getD false) f.id).nextPred = _
        rw [hbrf]
        exact renderFromPriorState_nextPred_collecting st fs f.id fd heq
  · intro st d fs hfs hlen id hid
    rw [updateData_lastPred st d fs hfs hlen id, if_pos hid]

/-- Witness for C4: a not-ready all-absent batch leaves the prediction
state untouched and renders 31 collecting cells. -/
theorem c4_witness :
    blankBatch.features = some (List.replicate 31 emptyFeatureData) ∧
    31 ≤ (List.replicate 31 emptyFeatureData).length ∧
    blankBatch.buffer_ready = some false ∧
    ((∀ i, (updateData initialMonitor (some blankBatch)).state.lastPredictionValues i =
        initialMonitor.lastPredictionValues i) ∧
     (∃ out, (updateData initialMonitor (some blankBatch)).output = some out ∧
        out.renders.length = 31 ∧
        ∀ pr ∈ out.renders, pr.2.nextPred =
          (⟨"收集数据中...", "data-value collecting"⟩ : CellUpdate))) :=
  ⟨rfl, by decide, rfl,
    c4_buffer_ready_gating.1 initialMonitor blankBatch _ rfl (by decide) rfl⟩

/-- C6 counterexample: a 32-entry batch (feature count ≠ 31) is not
rejected: the cycle completes without error, feature 1's persistent
`lastValues` is overwritten to 5, all 31 catalog cells are rendered,
and the connection status becomes `connected`, not an error state. -/
theorem c6_counterexample :
    wellFormedBatch oversizedBatch = false ∧
    (updateData initialMonitor (some oversizedBatch)).threw = false ∧
    (updateData initialMonitor (some oversizedBatch)).state.lastValues 1 =
      some (.num 5) ∧
    (updateData initialMonitor (some oversizedBatch)).output.map
      (fun o => o.renders.length) = some 31 ∧
    (fetchDataSuccess initialMonitor (some oversizedBatch) oversizedBatch).2.1 =
      "connected" :=
  ⟨rfl, rfl, rfl, rfl, rfl⟩

/-- C6 (amended): `updateData` validates only that `data` and
`data.features` exist, never the feature count.  A batch with at least
31 entries is processed normally (extra entries ignored); a batch with
fewer than 31 entries makes the display pass throw a TypeError at the
first out-of-range index, aborting the cycle before the `lastValues`
save pass — so `lastValues` is untouched and nothing is output — and
the exception is caught by `fetchData`, whose catch path sets the error
status and substitutes mock data. -/
theorem c6_batch_shape :
    (∀ (st : MonitorState) (fs : List FeatureData) (sc : Option ℕ) (br : Option Bool)
      (ts : Option String), 31 ≤ fs.length →
      (updateData st (some ⟨some fs, sc, br, ts⟩)).threw = false) ∧
    (∀ (st : MonitorState) (fs : List FeatureData) (sc : Option ℕ) (br : Option Bool)
      (ts : Option String), fs.length < 31 →
      (updateData st (some ⟨some fs, sc, br, ts⟩)).threw = true ∧
      (updateData st (some ⟨some fs, sc, br, ts⟩)).output = none ∧
      ∀ i, (updateData st (some ⟨some fs, sc, br, ts⟩)).state.lastValues i =
        st.lastValues i) := by
  constructor
  · intro st fs sc br ts hlen
    exact updateData_no_throw st _ fs rfl hlen
  · intro st fs sc br ts hlen
    have hmem : (⟨31, "No.10刀盘电机扭矩", "%"⟩ : Feature) ∈ FEATURE_CONFIG := by decide
    have hnone : fs.get? ((⟨31, "No.10刀盘电机扭矩", "%"⟩ : Feature).id - 1) = none :=
      List.get?_eq_none.mpr (by show fs.length ≤ 31 - 1; omega)
    have ht := displayPass_throws fs (br.getD false) FEATURE_CONFIG st ⟨_, hmem, hnone⟩
    have hresult : updateData st (some ⟨some fs, sc, br, ts⟩) =
        ⟨(updateDataDisplayPass fs (br.getD false) FEATURE_CONFIG st).st, none, true⟩ := by
      simp only [updateData, ht, if_true]
    rw [hresult]
    exact ⟨rfl, rfl, fun i =>
      congrFun (displayPass_lastValues fs (br.getD false) FEATURE_CONFIG st) i⟩

/-- Witness for C6's amended theorem: a 30-entry batch throws, outputs
nothing, and leaves `lastValues` untouched. -/
theorem c6_witness :
    (List.replicate 30 emptyFeatureData).length < 31 ∧
    (updateData initialMonitor
      (some ⟨some (List.replicate 30 emptyFeatureData), none, some false, none⟩)).threw =
      true ∧
    (updateData initialMonitor
      (some ⟨some (List.replicate 30 emptyFeatureData), none, some false, none⟩)).output =
      none ∧
    ∀ i, (updateData initialMonitor
      (some ⟨some (List.replicate 30 emptyFeatureData), none, some false,
        none⟩)).state.lastValues i = initialMonitor.lastValues i := by
  have h := c6_batch_shape.2 initialMonitor (List.replicate 30 emptyFeatureData) none
    (some false) none (by decide)
  exact ⟨by decide, h.1, h.2.1, h.2.2⟩

/-- C7: within one reconciliation cycle, every feature is classified
and rendered from the state as it stood at the start of the cycle: the
sequential display pass produces, for each catalog feature, exactly the
render computed from the prior-cycle state, so no feature's cells
observe another feature's in-tick update. -/
theorem c7_two_pass_render :
    ∀ (st : MonitorState) (d : BatchData) (fs : List FeatureData),
      d.features = some fs → fs.length = 31 →
      (updateData st (some d)).output.map UpdateOutput.renders =
        some (FEATURE_CONFIG.map fun f =>
          (f.id, renderFromPriorState st fs (d.buffer_ready.getD false) f.id)) :=
  fun st d fs hfs hlen => updateData_renders st d fs hfs hlen.ge

/-- Witness for C7 at a concrete one-value batch. -/
theorem c7_witness :
    (tickBatch (some (.num 5))).features = some (featuresWithCurrent1 (some (.num 5))) ∧
    (featuresWithCurrent1 (some (.num 5))).length = 31 ∧
    (updateData initialMonitor (some (tickBatch (some (.num 5))))).output.map
        UpdateOutput.renders =
      some (FEATURE_CONFIG.map fun f =>
        (f.id, renderFromPriorState initialMonitor (featuresWithCurrent1 (some (.num 5)))
          ((tickBatch (some (.num 5))).buffer_ready.getD false) f.id)) :=
  ⟨rfl, by decide, c7_two_pass_render initialMonitor _ _ rfl (by decide)⟩

/-- C8 counterexample: stop the session, then let the pre-stop fetch
resolve — the resolution still mutates state and renders:
`lastValues[1]` becomes 5 and a render output is produced, because
`fetchData`'s continuation never consults the running flag and
`stopMonitoring` does not cancel or discard in-flight fetches. -/
theorem c8_counterexample :
    (stepEvent initSession SessionEvent.stop).monitor.isRunning = false ∧
    (stepEvent initSession SessionEvent.stop).monitor.lastValues 1 = none ∧
    (stepEvent (stepEvent initSession SessionEvent.stop)
      (SessionEvent.fetchSuccess (some (tickBatch (some (.num 5))))
        blankBatch)).monitor.lastValues 1 = some (.num 5) ∧
    ((stepEvent (stepEvent initSession SessionEvent.stop)
      (SessionEvent.fetchSuccess (some (tickBatch (some (.num 5))))
        blankBatch)).lastRender).isSome = true :=
  ⟨rfl, rfl, rfl, rfl⟩

/-- C8 (amended): a stopped session IS visibly updated by a fetch
issued before the stop: when that fetch resolves with a well-formed
batch, `updateData` runs unconditionally — `lastValues` is written, a
full render is produced and the status becomes `connected`;
`stopMonitoring` only clears the running flag and the timer. -/
theorem c8_stop_then_resolve :
    ∀ v : ℚ,
      (stepEvent (stepEvent initSession SessionEvent.stop)
        (SessionEvent.fetchSuccess (some (tickBatch (some (.num v))))
          blankBatch)).monitor.lastValues 1 = some (.num v) ∧
      ((stepEvent (stepEvent initSession SessionEvent.stop)
        (SessionEvent.fetchSuccess (some (tickBatch (some (.num v))))
          blankBatch)).lastRender).isSome = true ∧
      (stepEvent (stepEvent initSession SessionEvent.stop)
        (SessionEvent.fetchSuccess (some (tickBatch (some (.num v))))
          blankBatch)).status = "connected" := by
  intro v
  have hfs : (tickBatch (some (.num v))).features =
      some (featuresWithCurrent1 (some (.num v))) := rfl
  have hlen : 31 ≤ (featuresWithCurrent1 (some (.num v))).length := by
    simp [featuresWithCurrent1]
  have hthrew : (updateData (stepEvent initSession SessionEvent.stop).monitor
      (some (tickBatch (some (.num v))))).threw = false :=
    updateData_no_throw _ _ _ hfs hlen
  rw [stepEvent_fetchSuccess_no_throw _ _ _ (by decide) hthrew]
  refine ⟨?_, ?_, rfl⟩
  · show (updateData (stepEvent initSession SessionEvent.stop).monitor
      (some (tickBatch (some (.num v))))).state.lastValues 1 = some (.num v)
    rw [updateData_lastValues _ _ _ hfs hlen 1, if_pos (by decide : (1 : ℕ) ∈ catalogIds)]
    rfl
  · show (match (updateData (stepEvent initSession SessionEvent.stop).monitor
      (some (tickBatch (some (.num v))))).output with
      | some o => some o
      | none => (stepEvent initSession SessionEvent.stop).lastRender).isSome = true
    rw [updateData_output _ _ _ hfs hlen]
    rfl

end TBM
